import Mathlib

/-!
Verification of the `GetParam` earthquake-message parser (src/GetParam.py)
against its natural-language specification.

Strings are modelled as `List Char`; Python floats are modelled as exact
rationals `ℚ` (all numeric comparisons performed by the program are on
short decimal literals, where IEEE doubles and rationals order identically);
Python ints as `ℤ`.  Python exceptions are modelled by `Except` with an
explicit error-kind type following the spec's error taxonomy, refined where
the code raises an exception outside that taxonomy (an `IndexError` from
list indexing, or a `ValueError` raised by a failing `float()`/`int()`
conversion).
-/

namespace GetParam

/-- The characters treated as whitespace by Python's `str.strip()` and
`str.split()` (ASCII subset; the feed messages are ASCII). -/
def isSp (c : Char) : Bool :=
  c = ' ' ∨ c = '\t' ∨ c = '\n' ∨ c = '\r' ∨ c = '\x0b' ∨ c = '\x0c'

/-- Python `s.strip()`: drop leading and trailing whitespace. -/
def stripL (s : List Char) : List Char :=
  ((s.dropWhile isSp).reverse.dropWhile isSp).reverse

/-- Python `s.split(sep)` for a one-character separator: split at every
occurrence, keeping empty pieces; always returns at least one piece. -/
def splitOnChar (sep : Char) : List Char → List (List Char)
  | [] => [[]]
  | c :: rest =>
    let r := splitOnChar sep rest
    if c = sep then [] :: r
    else
      match r with
      | [] => [[c]]
      | h :: t => (c :: h) :: t

/-- Convenience: `List Char` of a string literal. -/
def cs (s : String) : List Char := s.data

/-- Python `str.split()` with no argument: split on runs of whitespace,
discarding empty pieces.  Fuel-based recursion (fuel bounds the length). -/
def pySplitWsAux : Nat → List Char → List (List Char)
  | 0, _ => []
  | _, [] => []
  | fuel + 1, c :: rest =>
    if isSp c then pySplitWsAux fuel rest
    else (c :: rest.takeWhile (fun d => ¬ isSp d)) ::
      pySplitWsAux fuel (rest.dropWhile (fun d => ¬ isSp d))

/-- Python `str.split()` with no argument. -/
def pySplitWs (s : List Char) : List (List Char) :=
  pySplitWsAux (s.length + 1) s

/-- Does `pat` occur as a prefix of `s`? -/
def hasPrefixL : List Char → List Char → Bool
  | _, [] => true
  | [], _ :: _ => false
  | a :: as, b :: bs => a = b && hasPrefixL as bs

/-- Python's `pat in s`: contiguous-substring containment. -/
def hasSub : List Char → List Char → Bool
  | s, pat =>
    hasPrefixL s pat ||
      match s with
      | [] => false
      | _ :: t => hasSub t pat

/-- Numeric value of a digit string (most significant first). -/
def natOfDigits (l : List Char) : Nat :=
  l.foldl (fun n c => 10 * n + (c.toNat - '0'.toNat)) 0

/-- Decimal rendering of a natural number (Python `str(int)` on
nonnegative values). -/
def natToChars (n : Nat) : List Char := (Nat.repr n).data

/-- Error kinds of the construction step (`param_split`).  `syntaxError`
is the spec's FormatError (the Python `SyntaxError` at line 122);
`indexError` is the Python `IndexError` raised by `text_split[1]` when the
comma split yields fewer than two segments. -/
inductive SplitErr where
  | indexError
  | syntaxError
deriving DecidableEq

/-- The four semantic fields produced by `param_split`
(`self.param_text[0..3]`): magnitude field, datetime field, depth field
(the last comma segment, `text_split[-1]`), and location field. -/
structure Fields where
  magF : List Char
  dtF : List Char
  depthF : List Char
  locF : List Char
deriving DecidableEq

/-- `GetParam.param_split` (src/GetParam.py lines 102-122): split the raw
message on commas; keep segments 0, 1 and -1 (stripped); a 5-way split
rejoins segments 2 and 3 with " - " (stripping the joined string) as the
location field, a 4-way split uses segment 2; any other count of at least
two segments raises the SyntaxError; with fewer than two segments the
access `text_split[1]` raises an IndexError first. -/
def param_split (raw : List Char) : Except SplitErr Fields :=
  match splitOnChar ',' raw with
  | [] => .error .indexError
  | [_] => .error .indexError
  | [a, b, c, d] => .ok ⟨stripL a, stripL b, stripL d, stripL c⟩
  | [a, b, c, d, e] =>
    .ok ⟨stripL a, stripL b, stripL e, stripL (c ++ cs " - " ++ d)⟩
  | _ => .error .syntaxError

/-- Error kinds of the extraction steps, following the spec's taxonomy
(§7) for the `ValueError`s / `TypeError` / `IndexError` / `AttributeError`
raised by the code, plus `conversionError` for a `ValueError` raised by a
failing `float()` / `int()` conversion inside a list comprehension and
`indexError` for the `IndexError` raised by `split()[-1]` on an empty
token list. -/
inductive GPErr where
  | notFound
  | ambiguous
  | conversionError
  | invalidDateTime
  | malformedTimeString
  | missingRemark
  | outOfBounds
  | indexError
deriving DecidableEq

/-- Greedy match of the body `\d*\.*\d+` of the numeric pattern at the
start of `l` (Python `re` semantics, with backtracking): maximal digit
run, maximal dot run, maximal digit run; if no digit follows the dots the
match backtracks to the leading digit run alone.  Returns the matched
characters and the remaining suffix. -/
def matchNum1 (l : List Char) : Option (List Char × List Char) :=
  let d1 := l.takeWhile Char.isDigit
  let r1 := l.dropWhile Char.isDigit
  let p := r1.takeWhile (fun c => c = '.')
  let r2 := r1.dropWhile (fun c => c = '.')
  let d2 := r2.takeWhile Char.isDigit
  let r3 := r2.dropWhile Char.isDigit
  if d2 ≠ [] ∧ (d1 ≠ [] ∨ p ≠ []) then some (d1 ++ p ++ d2, r3)
  else if d1 ≠ [] then some (d1, r1)
  else none

/-- `re.findall(r"[-+]?(?:\d*\.*\d+)", s)` (the pattern used by `get_mag`
at line 135 and `get_depth` at line 211): left-to-right scan for
non-overlapping leftmost greedy matches; an optional sign is included in
the match when the body matches right after it.  Fuel-based recursion. -/
def findall1Aux : Nat → List Char → List (List Char)
  | 0, _ => []
  | _, [] => []
  | fuel + 1, c :: rest =>
    let sgn : List Char := if c = '-' ∨ c = '+' then [c] else []
    let body := if c = '-' ∨ c = '+' then rest else c :: rest
    match matchNum1 body with
    | some (m, r) => (sgn ++ m) :: findall1Aux fuel r
    | none => findall1Aux fuel rest

/-- All matches of `[-+]?(?:\d*\.*\d+)` in `s`. -/
def findall1 (s : List Char) : List (List Char) :=
  findall1Aux (s.length + 1) s

/-- Greedy match of `\d+\.\d+` at the start of a digit run (the pattern
used by `get_loc` at line 249): a nonempty digit run, one dot, a nonempty
digit run. -/
def matchNum2 (l : List Char) : Option (List Char × List Char) :=
  match l.dropWhile Char.isDigit with
  | '.' :: r2 =>
    if l.takeWhile Char.isDigit ≠ [] ∧ r2.takeWhile Char.isDigit ≠ [] then
      some (l.takeWhile Char.isDigit ++ '.' :: r2.takeWhile Char.isDigit,
        r2.dropWhile Char.isDigit)
    else none
  | _ => none

/-- `re.findall(r"\d+\.\d+", s)`: left-to-right non-overlapping scan. -/
def findall2Aux : Nat → List Char → List (List Char)
  | 0, _ => []
  | _, [] => []
  | fuel + 1, c :: rest =>
    match matchNum2 (c :: rest) with
    | some (m, r) => m :: findall2Aux fuel r
    | none => findall2Aux fuel rest

/-- All matches of `\d+\.\d+` in `s`. -/
def findall2 (s : List Char) : List (List Char) :=
  findall2Aux (s.length + 1) s

/-- Sign factor of a Python numeric literal: -1 for a leading minus. -/
def pySign (m : List Char) : ℚ :=
  match m with
  | '-' :: _ => -1
  | _ => 1

/-- The digits of a Python numeric literal after an optional sign. -/
def pyBody (m : List Char) : List Char :=
  match m with
  | '-' :: t => t
  | '+' :: t => t
  | t => t

/-- Python `float()` on the strings produced by the numeric patterns:
optional sign, digits, optionally one dot and more digits; at least one
digit overall; anything else (in particular two or more dots) raises,
modelled as `none`.  The value is exact (rational). -/
def pyFloat (m : List Char) : Option ℚ :=
  match (pyBody m).dropWhile Char.isDigit with
  | [] =>
    if (pyBody m).takeWhile Char.isDigit = [] then none
    else some (pySign m * natOfDigits ((pyBody m).takeWhile Char.isDigit))
  | '.' :: r2 =>
    if r2.dropWhile Char.isDigit ≠ [] then none
    else if (pyBody m).takeWhile Char.isDigit = [] ∧
        r2.takeWhile Char.isDigit = [] then none
    else some (pySign m *
      ((natOfDigits ((pyBody m).takeWhile Char.isDigit) : ℚ) +
        (natOfDigits (r2.takeWhile Char.isDigit) : ℚ) /
          10 ^ (r2.takeWhile Char.isDigit).length))
  | _ => none

/-- Python `int()` on the strings produced by the numeric pattern:
optional sign followed by at least one digit and nothing else; a string
containing a dot raises, modelled as `none`. -/
def pyInt (m : List Char) : Option ℤ :=
  let sgn : ℤ := match m with | '-' :: _ => -1 | _ => 1
  let body : List Char := match m with
    | '-' :: t => t
    | '+' :: t => t
    | t => t
  if body ≠ [] ∧ body.all Char.isDigit then some (sgn * natOfDigits body)
  else none

/-- Convert every element, failing (like a list comprehension whose
conversion raises) if any single conversion fails. -/
def optMap (g : α → Option β) : List α → Option (List β)
  | [] => some []
  | a :: t =>
    match g a, optMap g t with
    | some b, some bs => some (b :: bs)
    | _, _ => none

/-- `GetParam.get_mag` at field level (lines 135-140): build the list of
floats from all matches of the numeric pattern (a failing conversion
raises first), then: empty list → NotFound, more than one → Ambiguous,
exactly one → the stored list `self.mag`. -/
def magResult (f : List Char) : Except GPErr (List ℚ) :=
  match optMap pyFloat (findall1 f) with
  | none => .error .conversionError
  | some l =>
    if l.length < 1 then .error .notFound
    else if 1 < l.length then .error .ambiguous
    else .ok l

/-- `GetParam.get_depth` at field level (lines 211-215): identical to
`magResult` but converting each match with `int()`. -/
def depthResult (f : List Char) : Except GPErr (List ℤ) :=
  match optMap pyInt (findall1 f) with
  | none => .error .conversionError
  | some l =>
    if l.length < 1 then .error .notFound
    else if 1 < l.length then .error .ambiguous
    else .ok l

/-- Month-abbreviation normalization of `get_ot` (lines 175-182): the
exact membership tests of the Python code — only the title-case and
lowercase forms of the four Indonesian abbreviations are rewritten. -/
def normMonth (m : List Char) : List Char :=
  if m = cs "Mei" ∨ m = cs "mei" then cs "May"
  else if m = cs "Agu" ∨ m = cs "agu" then cs "Aug"
  else if m = cs "Okt" ∨ m = cs "okt" then cs "Oct"
  else if m = cs "Des" ∨ m = cs "des" then cs "Dec"
  else m

/-- Candidate matches of the `%d` directive of `strptime`, in the order
of its regex alternation `3[01]|[12]\d|0[1-9]|[1-9]`: at most one
two-character candidate followed by the one-character candidate. -/
def dayCands : List Char → List (Nat × List Char)
  | [] => []
  | [c1] =>
    if c1.isDigit ∧ c1 ≠ '0' then [(c1.toNat - '0'.toNat, [])] else []
  | c1 :: c2 :: rest =>
    let two :=
      if c1 = '3' ∧ (c2 = '0' ∨ c2 = '1') then
        [(30 + (c2.toNat - '0'.toNat), rest)]
      else if (c1 = '1' ∨ c1 = '2') ∧ c2.isDigit then
        [(10 * (c1.toNat - '0'.toNat) + (c2.toNat - '0'.toNat), rest)]
      else if c1 = '0' ∧ c2.isDigit ∧ c2 ≠ '0' then
        [(c2.toNat - '0'.toNat, rest)]
      else []
    let one :=
      if c1.isDigit ∧ c1 ≠ '0' then [(c1.toNat - '0'.toNat, c2 :: rest)]
      else []
    two ++ one

/-- The English month abbreviations recognized by `strptime`'s `%b`
directive in the C locale, with their month numbers. -/
def monthAbbrevs : List (List Char × Nat) :=
  [(cs "jan", 1), (cs "feb", 2), (cs "mar", 3), (cs "apr", 4),
   (cs "may", 5), (cs "jun", 6), (cs "jul", 7), (cs "aug", 8),
   (cs "sep", 9), (cs "oct", 10), (cs "nov", 11), (cs "dec", 12)]

/-- Match the `%b` directive: three characters, case-insensitively equal
to an English month abbreviation. -/
def matchMonth (l : List Char) : Option (Nat × List Char) :=
  (monthAbbrevs.find? (fun p => (l.take 3).map Char.toLower = p.1)).map
    (fun p => (p.2, l.drop 3))

/-- Match `\s+` (the translation of a literal space in a `strptime`
format): at least one whitespace character, consumed greedily. -/
def wsPlus (l : List Char) : Option (List Char) :=
  if l.takeWhile isSp = [] then none else some (l.dropWhile isSp)

/-- Match the `%y` directive: exactly two digits. -/
def twoDigits : List Char → Option (Nat × List Char)
  | a :: b :: rest =>
    if a.isDigit ∧ b.isDigit then
      some (10 * (a.toNat - '0'.toNat) + (b.toNat - '0'.toNat), rest)
    else none
  | _ => none

/-- Gregorian leap-year rule (as used by Python's `datetime.date`). -/
def isLeap (y : Nat) : Bool := y % 4 = 0 ∧ (y % 100 ≠ 0 ∨ y % 400 = 0)

/-- Days in a month of the proleptic Gregorian calendar. -/
def daysInMonth (y m : Nat) : Nat :=
  if m = 2 then (if isLeap y then 29 else 28)
  else if m = 4 ∨ m = 6 ∨ m = 9 ∨ m = 11 then 30
  else 31

/-- Continuation of `strptime('%d %b %y')` after a day candidate:
whitespace, month abbreviation, whitespace, two-digit year, end of input;
the two-digit year is mapped to 2000-2068 / 1969-1999, and the day is
validated against the month length (as `datetime.date` does). -/
def finishDMY (d : Nat) (r1 : List Char) : Option (Nat × Nat × Nat) :=
  match wsPlus r1 with
  | none => none
  | some r2 =>
    match matchMonth r2 with
    | none => none
    | some (m, r3) =>
      match wsPlus r3 with
      | none => none
      | some r4 =>
        match twoDigits r4 with
        | none => none
        | some (y2, r5) =>
          if r5 = [] then
            let y := if y2 ≤ 68 then 2000 + y2 else 1900 + y2
            if d ≤ daysInMonth y m then some (d, m, y) else none
          else none

/-- Python `datetime.strptime(s, '%d %b %y').date()`, returning
`(day, month, year)`: try the day-directive candidates in regex
alternation order, backtracking to the shorter one. -/
def pyStrptimeDMY (s : List Char) : Option (Nat × Nat × Nat) :=
  match dayCands s with
  | [] => none
  | [(d, r)] => finishDMY d r
  | (d1, r1) :: (d2, r2) :: _ =>
    match finishDMY d1 r1 with
    | some v => some v
    | none => finishDMY d2 r2

/-- Days before month `m` in year `y`. -/
def daysBeforeMonth (y m : Nat) : Nat :=
  (List.range (m - 1)).foldl (fun acc i => acc + daysInMonth y (i + 1)) 0

/-- Proleptic-Gregorian ordinal of a date (`date.toordinal`:
0001-01-01 is ordinal 1). -/
def ordinalOf (y m d : Nat) : Nat :=
  365 * (y - 1) + (y - 1) / 4 - (y - 1) / 100 + (y - 1) / 400 +
    daysBeforeMonth y m + d

/-- English weekday names in `date.weekday()` order (Monday first). -/
def engDays : List (List Char) :=
  [cs "Monday", cs "Tuesday", cs "Wednesday", cs "Thursday",
   cs "Friday", cs "Saturday", cs "Sunday"]

/-- English weekday name of a date (`date.strftime('%A')`). -/
def weekdayName (y m d : Nat) : List Char :=
  engDays.getD ((ordinalOf y m d + 6) % 7) []

/-- Canonical English month abbreviations (`date.strftime('%b')`). -/
def engMonths : List (List Char) :=
  [cs "Jan", cs "Feb", cs "Mar", cs "Apr", cs "May", cs "Jun",
   cs "Jul", cs "Aug", cs "Sep", cs "Oct", cs "Nov", cs "Dec"]

/-- Modelled from the spec: the external `day_translator` module
(imported at line 29 but not under src/) provides `dayTranslate`, a pure
lookup translating an English weekday name to its Indonesian form; the
source reads its result with index `[1]`, so it is modelled as returning
the list `[english, localized]`. -/
def dayTranslate (name : List Char) : List (List Char) :=
  let tbl : List (List Char × List Char) :=
    [(cs "Monday", cs "Senin"), (cs "Tuesday", cs "Selasa"),
     (cs "Wednesday", cs "Rabu"), (cs "Thursday", cs "Kamis"),
     (cs "Friday", cs "Jumat"), (cs "Saturday", cs "Sabtu"),
     (cs "Sunday", cs "Minggu")]
  [name, ((tbl.find? (fun p => p.1 = name)).map (fun p => p.2)).getD name]

/-- Modelled from the spec: `monthTranslate` of the external
`day_translator` module, a pure lookup translating an English month
abbreviation to the Indonesian month name, modelled like
`dayTranslate`. -/
def monthTranslate (name : List Char) : List (List Char) :=
  let tbl : List (List Char × List Char) :=
    [(cs "Jan", cs "Januari"), (cs "Feb", cs "Februari"),
     (cs "Mar", cs "Maret"), (cs "Apr", cs "April"),
     (cs "May", cs "Mei"), (cs "Jun", cs "Juni"),
     (cs "Jul", cs "Juli"), (cs "Aug", cs "Agustus"),
     (cs "Sep", cs "September"), (cs "Oct", cs "Oktober"),
     (cs "Nov", cs "November"), (cs "Dec", cs "Desember")]
  [name, ((tbl.find? (fun p => p.1 = name)).map (fun p => p.2)).getD name]

/-- The date-parsing portion of `get_ot`'s `try` block (lines 171-185):
whitespace-split the datetime field, dash-split the first token (failing
like the Python `IndexError` when there is no token or no second dash
component), normalize the month abbreviation, rejoin with single spaces
and parse with `strptime('%d %b %y')`.  `none` models any exception
caught by the bare `except`. -/
def otDateOk (f : List Char) : Option (Nat × Nat × Nat) :=
  match pySplitWs f with
  | [] => none
  | t0 :: _ =>
    match splitOnChar '-' t0 with
    | [] => none
    | [_] => none
    | d0 :: d1 :: dr =>
      pyStrptimeDMY (List.intercalate [' '] (d0 :: normMonth d1 :: dr))

/-- Result fields of `get_ot`: `self.dayname`, `self.origintime` and
`self.timestring`. -/
structure OTRes where
  dayname : List Char
  origintime : List Char
  timestring : List Char
deriving DecidableEq

/-- `GetParam.get_ot` at field level (lines 142-195): the `try` block
attempts the date parse of the first whitespace token (any failure →
InvalidDateTime, the Python `TypeError` at line 188); only afterwards is
the whitespace token count checked against 3 (failure →
MalformedTimeString, the Python `IndexError` at line 191); on success the
day name is translated and the origin-time and time strings built. -/
def otResult (f : List Char) : Except GPErr OTRes :=
  match otDateOk f with
  | none => .error .invalidDateTime
  | some (d, m, y) =>
    let ts := pySplitWs f
    if ts.length ≠ 3 then .error .malformedTimeString
    else
      let dname := weekdayName y m d
      let mname := engMonths.getD (m - 1) []
      .ok { dayname := (dayTranslate dname).getD 1 [],
            origintime := natToChars d ++ ' ' ::
              ((monthTranslate mname).getD 1 [] ++ ' ' :: natToChars y),
            timestring := ts.getD 1 [] ++ ' ' :: ts.getD 2 [] }

/-- `re.search(r"\(([^)]+)", s).group(1)` (line 243): scan left to right
for the first `(` followed by at least one character other than `)`; the
group is the maximal run of non-`)` characters after it.  `none` models a
failed search (whose `.group(1)` raises an `AttributeError`, the spec's
MissingRemark). -/
def searchParen : List Char → Option (List Char)
  | [] => none
  | a :: rest =>
    if a = '(' then
      let g := rest.takeWhile (fun c => c ≠ ')')
      if g = [] then searchParen rest else some g
    else searchParen rest

/-- Does the string contain a `(` immediately followed by a character
other than `)` (the condition for `re.search(r"\(([^)]+)")` to
succeed)? -/
def anyGood : List Char → Bool
  | [] => false
  | [_] => false
  | a :: b :: t => (a = '(' && b ≠ ')') || anyGood (b :: t)

/-- Is position `i` the start of a `(` immediately followed by a
character other than `)`? -/
def goodAtB (f : List Char) (i : Nat) : Bool :=
  match f.drop i with
  | a :: b :: _ => a = '(' && b ≠ ')'
  | _ => false

/-- Python `s.replace('-', ', ')` as applied to the place name
(line 244). -/
def pyReplaceDash (l : List Char) : List Char :=
  (l.map (fun c => if c = '-' then [',', ' '] else [c])).flatten

/-- The latitude/longitude assignment of `get_loc` (lines 255-260): the
first of the two extracted numbers lying in the closed interval
`[-11, 6]` becomes the latitude and the other the longitude; if neither
does, the OutOfBounds `ValueError` is raised. -/
def chooseLatLon (a b : ℚ) : Except GPErr (ℚ × ℚ) :=
  if -11 ≤ a ∧ a ≤ 6 then .ok (a, b)
  else if -11 ≤ b ∧ b ≤ 6 then .ok (b, a)
  else .error .outOfBounds

/-- The latitude-locator loop of `get_loc` (lines 262-266), iterating
over `['LS', 'LU']`: each tag found as a substring of the location field
overwrites the label with the current latitude value (the label is
modelled as the pair of that value and the tag, in place of its decimal
rendering); the `LS` branch additionally negates the latitude. -/
def latLoop (f : List Char) (lat0 : ℚ) :
    Option (ℚ × List Char) × ℚ :=
  let st1 : Option (ℚ × List Char) × ℚ :=
    if hasSub f (cs "LS") then (some (lat0, cs "LS"), -lat0)
    else (none, lat0)
  if hasSub f (cs "LU") then (some (st1.2, cs "LU"), st1.2) else st1

/-- The longitude-locator loop of `get_loc` (lines 268-272), iterating
over `['BT', 'BB']`: `BT` sets the label without changing the sign; `BB`
overwrites the label and negates the longitude. -/
def lonLoop (f : List Char) (lon0 : ℚ) :
    Option (ℚ × List Char) × ℚ :=
  let st1 : Option (ℚ × List Char) × ℚ :=
    if hasSub f (cs "BT") then (some (lon0, cs "BT"), lon0)
    else (none, lon0)
  if hasSub f (cs "BB") then (some (lon0, cs "BB"), -lon0) else st1

/-- Value of one coordinate match under `float()`: the conversion never
fails on a match of `\d+\.\d+` (proved below), so the default is never
used. -/
def decOf (m : List Char) : ℚ := (pyFloat m).getD 0

/-- Result fields of `get_loc`: `self.locstring`, `self.location`,
`self.latitude`, `self.longitude` and the optional `self.latlocator` /
`self.lonlocator` labels (set only when a hemisphere tag occurs). -/
structure LocRes where
  locstring : List Char
  location : List Char
  latitude : ℚ
  longitude : ℚ
  latloc : Option (ℚ × List Char)
  lonloc : Option (ℚ × List Char)
deriving DecidableEq

/-- `GetParam.get_loc` at field level (lines 217-272): extract the
parenthesized remark (failure → MissingRemark), take the last whitespace
token of the remark with dashes replaced by ", " (an empty token list
raises an `IndexError`), collect all `\d+\.\d+` matches as floats
(fewer than two → NotFound, more than two → Ambiguous), assign
latitude/longitude by the bound check, then run the two hemisphere-tag
loops. -/
def locResult (f : List Char) : Except GPErr LocRes :=
  match searchParen f with
  | none => .error .missingRemark
  | some g =>
    match (pySplitWs g).getLast? with
    | none => .error .indexError
    | some lastTok =>
      let location := pyReplaceDash lastTok
      let latlon := (findall2 f).map decOf
      match latlon with
      | [] => .error .notFound
      | [_] => .error .notFound
      | [a, b] =>
        match chooseLatLon a b with
        | .error e => .error e
        | .ok (lat0, lon0) =>
          let la := latLoop f lat0
          let lo := lonLoop f lon0
          .ok { locstring := g, location := location,
                latitude := la.2, longitude := lo.2,
                latloc := la.1, lonloc := lo.1 }
      | _ => .error .ambiguous

/-- Greedy match of the body `\d*\.?\d+` (at most one dot) of the
numeric pattern that claim C4 states, at the start of `l`; returns the
captured group and the remainder after the match. -/
def matchNumSpec (l : List Char) : Option (List Char × List Char) :=
  let d1 := l.takeWhile Char.isDigit
  let r1 := l.dropWhile Char.isDigit
  match r1 with
  | '.' :: r2 =>
    let d2 := r2.takeWhile Char.isDigit
    if d2 ≠ [] then some (d1 ++ '.' :: d2, r2.dropWhile Char.isDigit)
    else if d1 ≠ [] then some (d1, r1)
    else none
  | _ => if d1 ≠ [] then some (d1, r1) else none

/-- `re.findall(r"[-+]?(\d*\.?\d+)", s)` — the pattern written in claim
C4 and spec §4.1; with a capturing group, `findall` returns the group
(sign excluded).  This definition follows the claim's words, for
comparison with `findall1`, the pattern the source actually uses. -/
def findallSpecAux : Nat → List Char → List (List Char)
  | 0, _ => []
  | _, [] => []
  | fuel + 1, c :: rest =>
    let body := if c = '-' ∨ c = '+' then rest else c :: rest
    match matchNumSpec body with
    | some (g, r) => g :: findallSpecAux fuel r
    | none => findallSpecAux fuel rest

/-- All groups of `[-+]?(\d*\.?\d+)` in `s` (claimed behavior). -/
def findallSpec (s : List Char) : List (List Char) :=
  findallSpecAux (s.length + 1) s

/-- The magnitude extraction as claim C4 states it: scan with the
claimed pattern `[-+]?(\d*\.?\d+)`; zero matches → NotFound, several →
Ambiguous, exactly one → its value.  Follows the claim's words, for
comparison with `magResult` (translated from the source). -/
def magClaim (f : List Char) : Except GPErr ℚ :=
  match findallSpec f with
  | [] => .error .notFound
  | [m] => .ok ((pyFloat m).getD 0)
  | _ => .error .ambiguous

/-- The mutable state of a `GetParam` instance: the split field set
(computed once at construction) plus the attributes each extraction
method populates (absent attributes modelled as `none`). -/
structure PState where
  fields : Fields
  mag : Option (List ℚ) := none
  dayname : Option (List Char) := none
  origintime : Option (List Char) := none
  timestring : Option (List Char) := none
  depth : Option (List ℤ) := none
  locstring : Option (List Char) := none
  location : Option (List Char) := none
  latitude : Option ℚ := none
  longitude : Option ℚ := none
  latlocator : Option (ℚ × List Char) := none
  lonlocator : Option (ℚ × List Char) := none
deriving DecidableEq

/-- The state of a freshly constructed parser: only the field set is
populated. -/
def initState (fs : Fields) : PState := { fields := fs }

/-- `GetParam.get_mag` as a state transformer: on success stores the
singleton float list in `self.mag`. -/
def get_mag (st : PState) : Except GPErr PState :=
  (magResult st.fields.magF).map (fun l => { st with mag := some l })

/-- `GetParam.get_ot` as a state transformer: on success stores
`self.dayname`, `self.origintime` and `self.timestring`. -/
def get_ot (st : PState) : Except GPErr PState :=
  (otResult st.fields.dtF).map (fun r =>
    { st with dayname := some r.dayname, origintime := some r.origintime,
              timestring := some r.timestring })

/-- `GetParam.get_depth` as a state transformer: on success stores the
singleton int list in `self.depth`. -/
def get_depth (st : PState) : Except GPErr PState :=
  (depthResult st.fields.depthF).map (fun l => { st with depth := some l })

/-- `GetParam.get_loc` as a state transformer: on success stores the
location results; a locator attribute not assigned by the loops (no tag
found) keeps its previous value, as the Python attribute does. -/
def get_loc (st : PState) : Except GPErr PState :=
  (locResult st.fields.locF).map (fun r =>
    { st with locstring := some r.locstring, location := some r.location,
              latitude := some r.latitude, longitude := some r.longitude,
              latlocator := match r.latloc with
                | some v => some v
                | none => st.latlocator,
              lonlocator := match r.lonloc with
                | some v => some v
                | none => st.lonlocator })

end GetParam

deriving instance DecidableEq for Except

namespace GetParam

theorem splitOnChar_ne_nil (sep : Char) (l : List Char) :
    splitOnChar sep l ≠ [] := by
  induction l with
  | nil => simp [splitOnChar]
  | cons c rest ih =>
    simp only [splitOnChar]
    split
    · simp
    · cases hr : splitOnChar sep rest with
      | nil => exact absurd hr ih
      | cons h t => simp [hr]

theorem not_mem_of_mem_splitOnChar {sep : Char} :
    ∀ {l seg : List Char}, seg ∈ splitOnChar sep l → sep ∉ seg := by
  intro l
  induction l with
  | nil =>
    intro seg hseg
    simp [splitOnChar] at hseg
    simp [hseg]
  | cons c rest ih =>
    intro seg hseg
    simp only [splitOnChar] at hseg
    by_cases hc : c = sep
    · rw [if_pos hc] at hseg
      rcases List.mem_cons.mp hseg with h | h
      · simp [h]
      · exact ih h
    · rw [if_neg hc] at hseg
      cases hr : splitOnChar sep rest with
      | nil => exact absurd hr (splitOnChar_ne_nil sep rest)
      | cons h t =>
        rw [hr] at hseg
        rcases List.mem_cons.mp hseg with hs | hs
        · subst hs
          intro hmem
          rcases List.mem_cons.mp hmem with h1 | h1
          · exact hc h1.symm
          · exact ih (hr ▸ List.mem_cons_self h t) h1
        · exact ih (hr ▸ List.mem_cons_of_mem h hs)

theorem splitOnChar_append {sep : Char} :
    ∀ {x : List Char}, sep ∉ x → ∀ y : List Char,
      splitOnChar sep (x ++ sep :: y) = x :: splitOnChar sep y := by
  intro x
  induction x with
  | nil => intro _ y; simp [splitOnChar]
  | cons c x' ih =>
    intro hx y
    have hc : ¬ c = sep := fun h => hx (h ▸ List.mem_cons_self c x')
    have hx' : sep ∉ x' := fun h => hx (List.mem_cons_of_mem c h)
    have ihy := ih hx' y
    simp only [List.cons_append, splitOnChar, if_neg hc, List.append_eq, ihy]

theorem splitOnChar_of_not_mem {sep : Char} :
    ∀ {x : List Char}, sep ∉ x → splitOnChar sep x = [x] := by
  intro x
  induction x with
  | nil => intro _; rfl
  | cons c x' ih =>
    intro hx
    have hc : ¬ c = sep := fun h => hx (h ▸ List.mem_cons_self c x')
    have hx' : sep ∉ x' := fun h => hx (List.mem_cons_of_mem c h)
    simp only [splitOnChar, if_neg hc, ih hx']

theorem stripL_eq_rdrop (l : List Char) :
    stripL l = List.rdropWhile isSp (List.dropWhile isSp l) := rfl

theorem mem_stripL {c : Char} {l : List Char} (h : c ∈ stripL l) :
    c ∈ l := by
  rw [stripL_eq_rdrop] at h
  have h1 : c ∈ List.dropWhile isSp l :=
    (List.rdropWhile_prefix isSp _).sublist.subset h
  exact (List.dropWhile_suffix isSp).sublist.subset h1

theorem stripL_idem (l : List Char) : stripL (stripL l) = stripL l := by
  rw [stripL_eq_rdrop, stripL_eq_rdrop]
  have hw : List.dropWhile isSp
      (List.rdropWhile isSp (List.dropWhile isSp l)) =
      List.rdropWhile isSp (List.dropWhile isSp l) := by
    rcases hp : List.rdropWhile isSp (List.dropWhile isSp l) with _ | ⟨wh, wt⟩
    · simp
    · obtain ⟨t, ht⟩ := List.rdropWhile_prefix isSp (List.dropWhile isSp l)
      rw [hp] at ht
      have hq : (List.dropWhile isSp l).head? = some wh := by
        rw [← ht]; rfl
      have hne : List.dropWhile isSp l ≠ [] := by
        intro h; rw [h] at hq; simp at hq
      have hh : (List.dropWhile isSp l).head hne = wh := by
        have h2 := List.head?_eq_head hne
        rw [hq] at h2
        exact (Option.some.injEq _ _ ▸ h2).symm
      have hf : isSp wh = false := by
        rw [← hh]
        exact List.head_dropWhile_not isSp l hne
      simp [List.dropWhile_cons, hf]
  rw [hw, List.rdropWhile_idempotent]

theorem optMap_length {α β : Type} {g : α → Option β} :
    ∀ {l : List α} {bs : List β}, optMap g l = some bs →
      bs.length = l.length := by
  intro l
  induction l with
  | nil => intro bs h; simp [optMap] at h; simp [← h]
  | cons a t ih =>
    intro bs h
    simp only [optMap] at h
    rcases hg : g a with _ | b <;> rw [hg] at h
    · exact absurd h (by simp)
    · rcases ht : optMap g t with _ | bt <;> rw [ht] at h
      · exact absurd h (by simp)
      · cases h
        simp [ih ht]

/-- Claim C2, counterexample: a raw string with no comma at all splits
into a single segment, and construction then raises the `IndexError`
from `text_split[1]`, not the FormatError (`SyntaxError`) the claim
demands for every segment count outside {4, 5}. -/
theorem claim_C2_cex :
    param_split (cs "abc") = .error .indexError ∧
      SplitErr.indexError ≠ SplitErr.syntaxError := by
  exact ⟨by decide, by decide⟩

/-- Claim C2, amended: construction raises the FormatError
(`SyntaxError`) exactly when the comma split yields 2, 3, or at least 6
segments; a single-segment (comma-free) input instead raises an
`IndexError` at `text_split[1]`; 4- and 5-segment inputs always
construct successfully. -/
theorem claim_C2_amended : ∀ raw : List Char,
    (param_split raw = .error .syntaxError ↔
      ((splitOnChar ',' raw).length = 2 ∨ (splitOnChar ',' raw).length = 3 ∨
        6 ≤ (splitOnChar ',' raw).length)) ∧
    ((splitOnChar ',' raw).length = 1 →
      param_split raw = .error .indexError) ∧
    (((splitOnChar ',' raw).length = 4 ∨ (splitOnChar ',' raw).length = 5) →
      ∃ fs, param_split raw = .ok fs) := by
  intro raw
  rcases hsp : splitOnChar ',' raw with
    _ | ⟨a, _ | ⟨b, _ | ⟨c, _ | ⟨d, _ | ⟨e, _ | ⟨f, rest⟩⟩⟩⟩⟩⟩ <;>
    simp only [param_split, hsp, List.length_cons, List.length_nil] <;>
    refine ⟨⟨fun h => ?_, fun h => ?_⟩, fun h => ?_, fun h => ?_⟩ <;>
    first
      | exact trivial
      | rfl
      | omega
      | exact ⟨_, rfl⟩
      | exact Or.inl trivial
      | exact Or.inr (Or.inl trivial)
      | simp at h

/-- Claim C2, witness: a 3-segment input raises the FormatError, a
comma-free input the IndexError, and a 4-segment input constructs. -/
theorem claim_C2_witness :
    param_split (cs "a,b,c") = .error .syntaxError ∧
      param_split (cs "abc") = .error .indexError ∧
      ∃ fs, param_split (cs "a,b,c,d") = .ok fs :=
  ⟨(claim_C2_amended (cs "a,b,c")).1.mpr (Or.inr (Or.inl (by decide))),
   (claim_C2_amended (cs "abc")).2.1 (by decide),
   (claim_C2_amended (cs "a,b,c,d")).2.2 (Or.inl (by decide))⟩

/-- Claim C3, confirmed: for a 5-way comma split `[a, b, c, d, e]`, the
location field is `stripL (c ++ " - " ++ d)`, and the parser state equals
the one constructed from the equivalent 4-way message whose third segment
is that rejoined string, so every extraction method behaves
identically on the two messages. -/
theorem claim_C3 : ∀ raw a b c d e : List Char,
    splitOnChar ',' raw = [a, b, c, d, e] →
    param_split raw = .ok ⟨stripL a, stripL b, stripL e,
      stripL (c ++ cs " - " ++ d)⟩ ∧
    splitOnChar ',' (a ++ ',' :: (b ++ ',' ::
      (stripL (c ++ cs " - " ++ d) ++ ',' :: e))) =
      [a, b, stripL (c ++ cs " - " ++ d), e] ∧
    param_split (a ++ ',' :: (b ++ ',' ::
      (stripL (c ++ cs " - " ++ d) ++ ',' :: e))) = param_split raw ∧
    (∀ fs fs', param_split raw = .ok fs →
      param_split (a ++ ',' :: (b ++ ',' ::
        (stripL (c ++ cs " - " ++ d) ++ ',' :: e))) = .ok fs' →
      magResult fs.magF = magResult fs'.magF ∧
      otResult fs.dtF = otResult fs'.dtF ∧
      depthResult fs.depthF = depthResult fs'.depthF ∧
      locResult fs.locF = locResult fs'.locF) := by
  intro raw a b c d e hsp
  have ha : ',' ∉ a := not_mem_of_mem_splitOnChar (by rw [hsp]; simp)
  have hb : ',' ∉ b := not_mem_of_mem_splitOnChar (by rw [hsp]; simp)
  have hcm : ',' ∉ c := not_mem_of_mem_splitOnChar (by rw [hsp]; simp)
  have hdm : ',' ∉ d := not_mem_of_mem_splitOnChar (by rw [hsp]; simp)
  have he : ',' ∉ e := not_mem_of_mem_splitOnChar (by rw [hsp]; simp)
  have hr : ',' ∉ stripL (c ++ cs " - " ++ d) := by
    intro hm
    have hmem := mem_stripL hm
    rcases List.mem_append.mp hmem with h1 | h2
    · rcases List.mem_append.mp h1 with h3 | h4
      · exact hcm h3
      · simp [cs] at h4
    · exact hdm h2
  have part1 : param_split raw = .ok ⟨stripL a, stripL b, stripL e,
      stripL (c ++ cs " - " ++ d)⟩ := by
    unfold param_split; rw [hsp]
  have part2 : splitOnChar ',' (a ++ ',' :: (b ++ ',' ::
      (stripL (c ++ cs " - " ++ d) ++ ',' :: e))) =
      [a, b, stripL (c ++ cs " - " ++ d), e] := by
    rw [splitOnChar_append ha, splitOnChar_append hb,
      splitOnChar_append hr, splitOnChar_of_not_mem he]
  have part3 : param_split (a ++ ',' :: (b ++ ',' ::
      (stripL (c ++ cs " - " ++ d) ++ ',' :: e))) = param_split raw := by
    unfold param_split
    rw [part2, hsp]
    simp only [stripL_idem]
  refine ⟨part1, part2, part3, ?_⟩
  intro fs fs' h1 h2
  rw [part3, h1] at h2
  injection h2 with h3
  subst h3
  exact ⟨rfl, rfl, rfl, rfl⟩

/-- Claim C3, witness: the first recognized example string splits 5 ways
and its parse equals that of the equivalent 4-way message. -/
theorem claim_C3_witness :
    param_split (cs "Info Gempa. Mag:2.9, 21-mei-24 18:29:27 WIB, Lok:0.30 LS,100.28 BT (9 km Tenggara Bukittinggi), Kedlmn: 10 Km ::BMKG-PGR VI") =
      .ok ⟨stripL (cs "Info Gempa. Mag:2.9"),
        stripL (cs " 21-mei-24 18:29:27 WIB"),
        stripL (cs " Kedlmn: 10 Km ::BMKG-PGR VI"),
        stripL (cs " Lok:0.30 LS" ++ cs " - " ++
          cs "100.28 BT (9 km Tenggara Bukittinggi)")⟩ ∧
    param_split (cs "Info Gempa. Mag:2.9" ++ ',' ::
      (cs " 21-mei-24 18:29:27 WIB" ++ ',' ::
        (stripL (cs " Lok:0.30 LS" ++ cs " - " ++
          cs "100.28 BT (9 km Tenggara Bukittinggi)") ++ ',' ::
            cs " Kedlmn: 10 Km ::BMKG-PGR VI"))) =
      param_split (cs "Info Gempa. Mag:2.9, 21-mei-24 18:29:27 WIB, Lok:0.30 LS,100.28 BT (9 km Tenggara Bukittinggi), Kedlmn: 10 Km ::BMKG-PGR VI") := by
  constructor
  · exact (claim_C3 _ _ _ _ _ _ (by decide)).1
  · exact (claim_C3 _ _ _ _ _ _ (by decide)).2.2.1

/-- Claim C4, counterexample: the pattern the code uses is
`[-+]?(?:\d*\.*\d+)` (zero or more dots, no capturing group), not the
claimed `[-+]?(\d*\.?\d+)`, and each match is converted by `float()`
before the count checks; on the field "Mag:2..9" the claimed behavior is
an Ambiguous error (two matches of the claimed pattern), while the code
finds one match "2..9" whose conversion raises a plain `ValueError`. -/
theorem claim_C4_cex :
    magResult (cs "Mag:2..9") = .error .conversionError ∧
      magClaim (cs "Mag:2..9") = .error .ambiguous ∧
      findall1 (cs "Mag:2..9") = [cs "2..9"] ∧
      findallSpec (cs "Mag:2..9") = [cs "2", cs ".9"] ∧
      GPErr.conversionError ≠ GPErr.ambiguous := by
  exact ⟨by decide, by decide, by decide, by decide, by decide⟩

/-- Claim C4, amended: `extract_magnitude` scans for all matches of the
source's pattern `[-+]?(?:\d*\.*\d+)` and converts each to a float before
counting (a match with two or more dots raises a conversion error): zero
matches → NotFound, exactly one convertible match → its value, two or
more matches that all convert → Ambiguous; `extract_depth` behaves
identically with `int()` conversion (any match containing a dot raises
the conversion error). -/
theorem claim_C4_amended : ∀ f : List Char,
    (findall1 f = [] →
      magResult f = .error .notFound ∧ depthResult f = .error .notFound) ∧
    (∀ m, findall1 f = [m] →
      (∀ q, pyFloat m = some q → magResult f = .ok [q]) ∧
      (pyFloat m = none → magResult f = .error .conversionError) ∧
      (∀ z, pyInt m = some z → depthResult f = .ok [z]) ∧
      (pyInt m = none → depthResult f = .error .conversionError)) ∧
    (∀ m1 m2 ms, findall1 f = m1 :: m2 :: ms →
      (∀ qs, optMap pyFloat (findall1 f) = some qs →
        magResult f = .error .ambiguous) ∧
      (∀ zs, optMap pyInt (findall1 f) = some zs →
        depthResult f = .error .ambiguous)) := by
  intro f
  refine ⟨fun h0 => ?_, fun m h1 => ?_, fun m1 m2 ms h2 => ?_⟩
  · constructor <;> simp [magResult, depthResult, h0, optMap]
  · refine ⟨fun q hq => ?_, fun hq => ?_, fun z hz => ?_, fun hz => ?_⟩
    · simp [magResult, h1, optMap, hq]
    · simp [magResult, h1, optMap, hq]
    · simp [depthResult, h1, optMap, hz]
    · simp [depthResult, h1, optMap, hz]
  · constructor
    · intro qs hqs
      have hlen := optMap_length hqs
      rw [h2] at hlen
      simp only [magResult, hqs]
      rcases qs with _ | ⟨q1, _ | ⟨q2, qt⟩⟩ <;> simp at hlen ⊢
    · intro zs hzs
      have hlen := optMap_length hzs
      rw [h2] at hlen
      simp only [depthResult, hzs]
      rcases zs with _ | ⟨z1, _ | ⟨z2, zt⟩⟩ <;> simp at hlen ⊢

/-- Claim C4, witness: the field "Mag:2.9/3.0" (the claim's example)
yields the Ambiguous error, and the depth field of the first recognized
example yields the single integer 10. -/
theorem claim_C4_witness :
    magResult (cs "Mag:2.9/3.0") = .error .ambiguous ∧
      depthResult (cs "Kedlmn: 10 Km ::BMKG-PGR VI") = .ok [10] := by
  constructor
  · exact ((claim_C4_amended (cs "Mag:2.9/3.0")).2.2
      (cs "2.9") (cs "3.0") [] (by decide)).1 [29/10, 3]
      (by with_unfolding_all rfl)
  · exact ((claim_C4_amended (cs "Kedlmn: 10 Km ::BMKG-PGR VI")).2.1
      (cs "10") (by decide)).2.2.1 10 (by decide)

/-- Claim C6, confirmed: whenever the date-parsing pipeline of the `try`
block fails, `extract_origin_time` raises InvalidDateTime, whatever the
whitespace token count; the MalformedTimeString error is raised only when
the date parse has succeeded and the token count differs from 3. -/
theorem claim_C6 : ∀ f : List Char,
    (otDateOk f = none → otResult f = .error .invalidDateTime) ∧
    (∀ d m y, otDateOk f = some (d, m, y) → (pySplitWs f).length ≠ 3 →
      otResult f = .error .malformedTimeString) := by
  intro f
  constructor
  · intro h
    simp [otResult, h]
  · intro d m y h hlen
    simp [otResult, h, hlen]

/-- Claim C6, witness: a four-token field with an unparseable first token
raises InvalidDateTime (masking the token-count failure), while a
four-token field with a parseable date raises MalformedTimeString. -/
theorem claim_C6_witness :
    otResult (cs "xx yy zz ww") = .error .invalidDateTime ∧
      otResult (cs "21-mei-24 18:29:27 WIB X") =
        .error .malformedTimeString :=
  ⟨(claim_C6 (cs "xx yy zz ww")).1 (by decide),
   (claim_C6 (cs "21-mei-24 18:29:27 WIB X")).2 21 5 2024
     (by decide) (by decide)⟩

/-- Claim C7, counterexample: the all-caps abbreviation "MEI" is not in
the membership lists `['Mei','mei']` of the code, is left unchanged by
the normalization, and the date parse then fails with InvalidDateTime —
the claimed case-insensitivity does not hold. -/
theorem claim_C7_cex :
    otResult (cs "21-MEI-24 18:29:27 WIB") = .error .invalidDateTime ∧
      normMonth (cs "MEI") = cs "MEI" := by
  exact ⟨by decide, by decide⟩

/-- Claim C7, amended: the normalization mapping mei→May, agu→Aug,
okt→Oct, des→Dec applies exactly to the title-case and lowercase forms of
the four abbreviations; for those eight forms inside an otherwise valid
dd-mmm-yy token the date parse succeeds, while other capitalizations
(such as "MEI" or "mEi") are not normalized and raise InvalidDateTime. -/
theorem claim_C7_amended :
    (normMonth (cs "Mei") = cs "May" ∧ normMonth (cs "mei") = cs "May" ∧
     normMonth (cs "Agu") = cs "Aug" ∧ normMonth (cs "agu") = cs "Aug" ∧
     normMonth (cs "Okt") = cs "Oct" ∧ normMonth (cs "okt") = cs "Oct" ∧
     normMonth (cs "Des") = cs "Dec" ∧ normMonth (cs "des") = cs "Dec") ∧
    ((otResult (cs "21-Mei-24 18:29:27 WIB")).isOk = true ∧
     (otResult (cs "21-mei-24 18:29:27 WIB")).isOk = true ∧
     (otResult (cs "21-Agu-24 18:29:27 WIB")).isOk = true ∧
     (otResult (cs "21-agu-24 18:29:27 WIB")).isOk = true ∧
     (otResult (cs "21-Okt-24 18:29:27 WIB")).isOk = true ∧
     (otResult (cs "21-okt-24 18:29:27 WIB")).isOk = true ∧
     (otResult (cs "21-Des-24 18:29:27 WIB")).isOk = true ∧
     (otResult (cs "21-des-24 18:29:27 WIB")).isOk = true) ∧
    (otResult (cs "21-MEI-24 18:29:27 WIB") = .error .invalidDateTime ∧
     otResult (cs "21-mEi-24 18:29:27 WIB") = .error .invalidDateTime ∧
     otResult (cs "21-AGU-24 18:29:27 WIB") = .error .invalidDateTime ∧
     otResult (cs "21-OKT-24 18:29:27 WIB") = .error .invalidDateTime ∧
     otResult (cs "21-DES-24 18:29:27 WIB") = .error .invalidDateTime) := by
  exact ⟨by decide, by decide, by decide⟩

/-- Claim C9, confirmed: each extraction method recomputes its outputs
from the (unchanged) split field set, so a second call on the resulting
state succeeds with the identical state — in particular the hemisphere
sign flip does not compound. -/
theorem claim_C9 : ∀ st st' : PState,
    (get_mag st = .ok st' → get_mag st' = .ok st' ∧ st'.fields = st.fields) ∧
    (get_ot st = .ok st' → get_ot st' = .ok st' ∧ st'.fields = st.fields) ∧
    (get_depth st = .ok st' →
      get_depth st' = .ok st' ∧ st'.fields = st.fields) ∧
    (get_loc st = .ok st' → get_loc st' = .ok st' ∧ st'.fields = st.fields) := by
  intro st st'
  refine ⟨fun h => ?_, fun h => ?_, fun h => ?_, fun h => ?_⟩
  · rcases hm : magResult st.fields.magF with e | l <;> rw [get_mag, hm] at h
    · exact absurd h (by simp [Except.map])
    · simp only [Except.map, Except.ok.injEq] at h
      subst h
      exact ⟨by simp [get_mag, hm, Except.map], rfl⟩
  · rcases hm : otResult st.fields.dtF with e | r <;> rw [get_ot, hm] at h
    · exact absurd h (by simp [Except.map])
    · simp only [Except.map, Except.ok.injEq] at h
      subst h
      exact ⟨by simp [get_ot, hm, Except.map], rfl⟩
  · rcases hm : depthResult st.fields.depthF with e | l <;>
      rw [get_depth, hm] at h
    · exact absurd h (by simp [Except.map])
    · simp only [Except.map, Except.ok.injEq] at h
      subst h
      exact ⟨by simp [get_depth, hm, Except.map], rfl⟩
  · rcases hm : locResult st.fields.locF with e | r <;> rw [get_loc, hm] at h
    · exact absurd h (by simp [Except.map])
    · simp only [Except.map, Except.ok.injEq] at h
      subst h
      refine ⟨?_, rfl⟩
      rcases hl : r.latloc with _ | v <;> rcases ho : r.lonloc with _ | w <;>
        simp [get_loc, hm, Except.map, hl, ho]

/-- Claim C9, witness: on the first recognized example message each of
the four extraction methods, re-run on its own output state, returns
that state unchanged. -/
theorem claim_C9_witness :
    let fs : Fields := ⟨cs "Info Gempa. Mag:2.9",
      cs "21-mei-24 18:29:27 WIB", cs "Kedlmn: 10 Km ::BMKG-PGR VI",
      cs "Lok:0.30 LS - 100.28 BT (9 km Tenggara Bukittinggi)"⟩
    let stM : PState := { fields := fs, mag := some [29/10] }
    let stO : PState := { fields := fs, dayname := some (cs "Selasa"), origintime := some (cs "21 Mei 2024"), timestring := some (cs "18:29:27 WIB") }
    let stD : PState := { fields := fs, depth := some [10] }
    let stL : PState := { fields := fs, locstring := some (cs "9 km Tenggara Bukittinggi"), location := some (cs "Bukittinggi"), latitude := some (-(3/10)), longitude := some (2507/25), latlocator := some (3/10, cs "LS"), lonlocator := some (2507/25, cs "BT") }
    get_mag stM = .ok stM ∧ get_ot stO = .ok stO ∧
      get_depth stD = .ok stD ∧ get_loc stL = .ok stL := by
  intro fs stM stO stD stL
  refine ⟨?_, ?_, ?_, ?_⟩
  · exact ((claim_C9 { fields := fs } stM).1 (by with_unfolding_all rfl)).1
  · exact ((claim_C9 { fields := fs } stO).2.1 (by decide)).1
  · exact ((claim_C9 { fields := fs } stD).2.2.1 (by decide)).1
  · exact ((claim_C9 { fields := fs } stL).2.2.2
      (by with_unfolding_all rfl)).1

theorem latLoop_snd (f : List Char) (q : ℚ) :
    (latLoop f q).2 = if hasSub f (cs "LS") then -q else q := by
  unfold latLoop
  by_cases h1 : hasSub f (cs "LS") = true <;>
    by_cases h2 : hasSub f (cs "LU") = true <;> simp [h1, h2]

theorem lonLoop_snd (f : List Char) (q : ℚ) :
    (lonLoop f q).2 = if hasSub f (cs "BB") then -q else q := by
  unfold lonLoop
  by_cases h1 : hasSub f (cs "BT") = true <;>
    by_cases h2 : hasSub f (cs "BB") = true <;> simp [h1, h2]

theorem getLast?_some_of_ne_nil {l : List (List Char)} (h : l ≠ []) :
    ∃ x, l.getLast? = some x := by
  cases hg : l.getLast? with
  | none => exact absurd (List.getLast?_eq_none_iff.mp hg) h
  | some x => exact ⟨x, rfl⟩

/-- Claim C1, confirmed: with the remark present and exactly two
coordinate numbers extracted, the first one lying in the closed bound
`[-11, 6]` becomes the latitude (by value, first-in-order on a tie) and
the other the longitude (each then subject to the documented hemisphere
sign adjustment); if neither lies in the bound, the extraction fails
with OutOfBounds.  The bound is inclusive: the witness accepts exactly
6.0 and rejects 6.01. -/
theorem claim_C1 : ∀ f g x y : List Char,
    searchParen f = some g → pySplitWs g ≠ [] → findall2 f = [x, y] →
    ((-11 ≤ decOf x ∧ decOf x ≤ 6) → ∃ r, locResult f = .ok r ∧
      r.latitude = (if hasSub f (cs "LS") then -decOf x else decOf x) ∧
      r.longitude = (if hasSub f (cs "BB") then -decOf y else decOf y)) ∧
    (¬(-11 ≤ decOf x ∧ decOf x ≤ 6) → (-11 ≤ decOf y ∧ decOf y ≤ 6) →
      ∃ r, locResult f = .ok r ∧
        r.latitude = (if hasSub f (cs "LS") then -decOf y else decOf y) ∧
        r.longitude = (if hasSub f (cs "BB") then -decOf x else decOf x)) ∧
    (¬(-11 ≤ decOf x ∧ decOf x ≤ 6) → ¬(-11 ≤ decOf y ∧ decOf y ≤ 6) →
      locResult f = .error .outOfBounds) := by
  intro f g x y h1 h2 h3
  obtain ⟨lt, hlt⟩ := getLast?_some_of_ne_nil h2
  refine ⟨fun hin => ?_, fun hout hin => ?_, fun hout1 hout2 => ?_⟩
  · have hres : locResult f = .ok { locstring := g, location := pyReplaceDash lt, latitude := (latLoop f (decOf x)).2, longitude := (lonLoop f (decOf y)).2, latloc := (latLoop f (decOf x)).1, lonloc := (lonLoop f (decOf y)).1 } := by
      simp only [locResult, h1, hlt, h3, List.map, chooseLatLon, if_pos hin]
    exact ⟨_, hres, latLoop_snd f (decOf x), lonLoop_snd f (decOf y)⟩
  · have hres : locResult f = .ok { locstring := g, location := pyReplaceDash lt, latitude := (latLoop f (decOf y)).2, longitude := (lonLoop f (decOf x)).2, latloc := (latLoop f (decOf y)).1, lonloc := (lonLoop f (decOf x)).1 } := by
      simp only [locResult, h1, hlt, h3, List.map, chooseLatLon,
        if_neg hout, if_pos hin]
    exact ⟨_, hres, latLoop_snd f (decOf y), lonLoop_snd f (decOf x)⟩
  · simp only [locResult, h1, hlt, h3, List.map, chooseLatLon,
      if_neg hout1, if_neg hout2]

/-- Claim C1, witness: a latitude candidate of exactly 6.0 (other
candidate out of bounds) is accepted, with 6.0 as the latitude value
before the LS sign flip; 6.01 is rejected with OutOfBounds. -/
theorem claim_C1_witness :
    (∃ r, locResult (cs "Lok:6.00 LS 100.28 BT (x)") = .ok r ∧
      r.latitude = -6 ∧ r.longitude = 2507/25) ∧
    locResult (cs "Lok:6.01 LS 100.28 BT (x)") = .error .outOfBounds := by
  constructor
  · obtain ⟨r, hr, hlat, hlon⟩ :=
      (claim_C1 (cs "Lok:6.00 LS 100.28 BT (x)") (cs "x")
        (cs "6.00") (cs "100.28") (by decide) (by decide) (by decide)).1
        (by with_unfolding_all exact ⟨by decide, by decide⟩)
    refine ⟨r, hr, ?_, ?_⟩
    · rw [hlat]; with_unfolding_all rfl
    · rw [hlon]; with_unfolding_all rfl
  · exact (claim_C1 (cs "Lok:6.01 LS 100.28 BT (x)") (cs "x")
      (cs "6.01") (cs "100.28") (by decide) (by decide) (by decide)).2.2
      (by with_unfolding_all decide) (by with_unfolding_all decide)

/-- Claim C5, counterexample: the hemisphere test is a plain substring
test on the whole location field, so the tag `LU` also "occurs" inside
the place name "PALU"; on such a field both `LS` and `LU` occur, and the
latitude is negative although `LU` occurs — the claim's "when LU occurs
the latitude stays positive" fails. -/
theorem claim_C5_cex :
    (locResult (cs "Lok: 0.86 LS 119.89 BT (X PALU)")).map
        (fun r => r.latitude) = .ok (-(43/50)) ∧
      hasSub (cs "Lok: 0.86 LS 119.89 BT (X PALU)") (cs "LU") = true ∧
      (-(43/50) : ℚ) < 0 := by
  refine ⟨by with_unfolding_all rfl, by decide, by norm_num⟩

/-- Claim C5, amended: when `LS` occurs as a substring of the location
field the resulting latitude is the negation of the chosen unsigned
coordinate (nonpositive), and when `LS` does not occur the latitude stays
the unsigned coordinate, whether or not `LU` occurs; analogously `BB`
negates and its absence preserves the longitude; when neither tag of an
axis occurs, that axis's label stays unset and no error is raised. -/
theorem claim_C5_amended : ∀ f g x y : List Char,
    searchParen f = some g → pySplitWs g ≠ [] → findall2 f = [x, y] →
    ∀ r, locResult f = .ok r →
    (hasSub f (cs "LS") = true → r.latitude =
      -(if -11 ≤ decOf x ∧ decOf x ≤ 6 then decOf x else decOf y)) ∧
    (hasSub f (cs "LS") = false → r.latitude =
      (if -11 ≤ decOf x ∧ decOf x ≤ 6 then decOf x else decOf y)) ∧
    (hasSub f (cs "BB") = true → r.longitude =
      -(if -11 ≤ decOf x ∧ decOf x ≤ 6 then decOf y else decOf x)) ∧
    (hasSub f (cs "BB") = false → r.longitude =
      (if -11 ≤ decOf x ∧ decOf x ≤ 6 then decOf y else decOf x)) ∧
    (hasSub f (cs "LS") = false → hasSub f (cs "LU") = false →
      r.latloc = none) ∧
    (hasSub f (cs "BT") = false → hasSub f (cs "BB") = false →
      r.lonloc = none) := by
  intro f g x y h1 h2 h3 r hr
  obtain ⟨lt, hlt⟩ := getLast?_some_of_ne_nil h2
  by_cases hinx : -11 ≤ decOf x ∧ decOf x ≤ 6
  · have hres : locResult f = .ok { locstring := g, location := pyReplaceDash lt, latitude := (latLoop f (decOf x)).2, longitude := (lonLoop f (decOf y)).2, latloc := (latLoop f (decOf x)).1, lonloc := (lonLoop f (decOf y)).1 } := by
      simp only [locResult, h1, hlt, h3, List.map, chooseLatLon, if_pos hinx]
    rw [hres] at hr
    injection hr with hr
    subst hr
    refine ⟨fun hls => ?_, fun hls => ?_, fun hbb => ?_, fun hbb => ?_,
      fun hls hlu => ?_, fun hbt hbb => ?_⟩
    · rw [if_pos hinx]
      show (latLoop f (decOf x)).2 = _
      rw [latLoop_snd, if_pos hls]
    · rw [if_pos hinx]
      show (latLoop f (decOf x)).2 = _
      rw [latLoop_snd, if_neg (by simp [hls])]
    · rw [if_pos hinx]
      show (lonLoop f (decOf y)).2 = _
      rw [lonLoop_snd, if_pos hbb]
    · rw [if_pos hinx]
      show (lonLoop f (decOf y)).2 = _
      rw [lonLoop_snd, if_neg (by simp [hbb])]
    · show (latLoop f (decOf x)).1 = none
      simp [latLoop, hls, hlu]
    · show (lonLoop f (decOf y)).1 = none
      simp [lonLoop, hbt, hbb]
  · by_cases hiny : -11 ≤ decOf y ∧ decOf y ≤ 6
    · have hres : locResult f = .ok { locstring := g, location := pyReplaceDash lt, latitude := (latLoop f (decOf y)).2, longitude := (lonLoop f (decOf x)).2, latloc := (latLoop f (decOf y)).1, lonloc := (lonLoop f (decOf x)).1 } := by
        simp only [locResult, h1, hlt, h3, List.map, chooseLatLon,
          if_neg hinx, if_pos hiny]
      rw [hres] at hr
      injection hr with hr
      subst hr
      refine ⟨fun hls => ?_, fun hls => ?_, fun hbb => ?_, fun hbb => ?_,
        fun hls hlu => ?_, fun hbt hbb => ?_⟩
      · rw [if_neg hinx]
        show (latLoop f (decOf y)).2 = _
        rw [latLoop_snd, if_pos hls]
      · rw [if_neg hinx]
        show (latLoop f (decOf y)).2 = _
        rw [latLoop_snd, if_neg (by simp [hls])]
      · rw [if_neg hinx]
        show (lonLoop f (decOf x)).2 = _
        rw [lonLoop_snd, if_pos hbb]
      · rw [if_neg hinx]
        show (lonLoop f (decOf x)).2 = _
        rw [lonLoop_snd, if_neg (by simp [hbb])]
      · show (latLoop f (decOf y)).1 = none
        simp [latLoop, hls, hlu]
      · show (lonLoop f (decOf x)).1 = none
        simp [lonLoop, hbt, hbb]
    · have hres : locResult f = .error .outOfBounds := by
        simp only [locResult, h1, hlt, h3, List.map, chooseLatLon,
          if_neg hinx, if_neg hiny]
      rw [hres] at hr
      exact absurd hr (by simp)

/-- Claim C5, witness: on the first recognized example the `LS` tag
yields latitude -0.30 (the negated unsigned coordinate); on a tag-free
field both locator labels stay unset and no error is raised. -/
theorem claim_C5_witness :
    (locResult (cs "Lok:0.30 LS - 100.28 BT (9 km Tenggara Bukittinggi)")).map
        (fun r => r.latitude) = .ok (-(3/10)) ∧
      (locResult (cs "Lok: 0.30 - 100.28 (X)")).map
        (fun r => r.latloc) = .ok none ∧
      (locResult (cs "Lok: 0.30 - 100.28 (X)")).map
        (fun r => r.lonloc) = .ok none := by
  have hA : locResult (cs "Lok:0.30 LS - 100.28 BT (9 km Tenggara Bukittinggi)") = .ok { locstring := cs "9 km Tenggara Bukittinggi", location := cs "Bukittinggi", latitude := -(3/10), longitude := 2507/25, latloc := some (3/10, cs "LS"), lonloc := some (2507/25, cs "BT") } := by
    with_unfolding_all rfl
  have hB : locResult (cs "Lok: 0.30 - 100.28 (X)") = .ok { locstring := cs "X", location := cs "X", latitude := 3/10, longitude := 2507/25, latloc := none, lonloc := none } := by
    with_unfolding_all rfl
  have h1 := (claim_C5_amended
    (cs "Lok:0.30 LS - 100.28 BT (9 km Tenggara Bukittinggi)")
    (cs "9 km Tenggara Bukittinggi") (cs "0.30") (cs "100.28")
    (by decide) (by decide) (by decide) _ hA).1 (by decide)
  have h2 := (claim_C5_amended (cs "Lok: 0.30 - 100.28 (X)") (cs "X")
    (cs "0.30") (cs "100.28") (by decide) (by decide) (by decide) _ hB)
  refine ⟨?_, ?_, ?_⟩
  · rw [hA]
    exact congrArg Except.ok (h1.trans (by with_unfolding_all rfl))
  · rw [hB]
    exact congrArg Except.ok (h2.2.2.2.2.1 (by decide) (by decide))
  · rw [hB]
    exact congrArg Except.ok (h2.2.2.2.2.2 (by decide) (by decide))

theorem searchParen_none_of_anyGood (f : List Char)
    (h : anyGood f = false) : searchParen f = none := by
  induction f with
  | nil => rfl
  | cons a rest ih =>
    cases rest with
    | nil =>
      by_cases ha : a = '(' <;> simp [searchParen, ha, List.takeWhile]
    | cons b t =>
      simp only [anyGood, Bool.or_eq_false_iff, Bool.and_eq_false_iff] at h
      obtain ⟨hab, hrest⟩ := h
      have ihr := ih hrest
      by_cases ha : a = '('
      · have hb : b = ')' := by
          rcases hab with h1 | h2
          · rw [ha] at h1; simp at h1
          · simpa using h2
        have step1 : searchParen (a :: b :: t) = searchParen (b :: t) := by
          subst ha; subst hb
          simp [searchParen, List.takeWhile_cons]
        rw [step1]; exact ihr
      · simp only [searchParen, if_neg ha]
        exact ihr

theorem goodAtB_cons (a : Char) (t : List Char) (i : Nat) :
    goodAtB (a :: t) (i + 1) = goodAtB t i := by
  simp [goodAtB]

theorem searchParen_cons (a : Char) (rest : List Char) :
    searchParen (a :: rest) =
      if a = '(' then
        (if rest.takeWhile (fun c => c ≠ ')') = [] then searchParen rest
         else some (rest.takeWhile (fun c => c ≠ ')')))
      else searchParen rest := rfl

theorem searchParen_first : ∀ (f : List Char) (i : Nat),
    goodAtB f i = true → (∀ j, j < i → goodAtB f j = false) →
    searchParen f = some ((f.drop (i + 1)).takeWhile (fun c => c ≠ ')')) := by
  intro f
  induction f with
  | nil => intro i hi _; simp [goodAtB] at hi
  | cons a t ih =>
    intro i hi hmin
    cases i with
    | zero =>
      rcases t with _ | ⟨b, t'⟩
      · simp [goodAtB] at hi
      · simp only [goodAtB, List.drop, Bool.and_eq_true] at hi
        have ha : a = '(' := by simpa using hi.1
        have hb : ¬ b = ')' := by simpa using hi.2
        have hcons : (b :: t').takeWhile (fun c => c ≠ ')') =
            b :: t'.takeWhile (fun c => c ≠ ')') := by
          simp [List.takeWhile_cons, hb]
        rw [searchParen_cons, if_pos ha, hcons,
          if_neg (List.cons_ne_nil _ _)]
        exact congrArg some hcons.symm
    | succ i' =>
      have h0 : goodAtB (a :: t) 0 = false := hmin 0 (Nat.succ_pos i')
      have hti : goodAtB t i' = true := by rw [← goodAtB_cons a t i']; exact hi
      have htmin : ∀ j, j < i' → goodAtB t j = false := fun j hj => by
        rw [← goodAtB_cons a t j]; exact hmin (j + 1) (Nat.succ_lt_succ hj)
      have iht := ih i' hti htmin
      by_cases ha : a = '('
      · rcases t with _ | ⟨b, t'⟩
        · simp [goodAtB] at hti
        · have hb : b = ')' := by
            simp only [goodAtB, List.drop, ha] at h0
            simpa using h0
          have step1 : searchParen (a :: b :: t') = searchParen (b :: t') := by
            subst ha; subst hb
            simp [searchParen, List.takeWhile_cons]
          rw [step1, iht]
          exact rfl
      · have step1 : searchParen (a :: t) = searchParen t := by
          simp only [searchParen, if_neg ha]
        rw [step1, iht]
        exact rfl

theorem locstring_of_ok {f g : List Char} {r : LocRes}
    (hsp : searchParen f = some g) (hr : locResult f = .ok r) :
    r.locstring = g := by
  rcases hlt : (pySplitWs g).getLast? with _ | lt
  · simp only [locResult, hsp, hlt] at hr
    exact absurd hr (by simp)
  · rcases hl : (findall2 f).map decOf with _ | ⟨v1, _ | ⟨v2, _ | ⟨v3, vt⟩⟩⟩
    · simp only [locResult, hsp, hlt, hl] at hr
      exact absurd hr (by simp)
    · simp only [locResult, hsp, hlt, hl] at hr
      exact absurd hr (by simp)
    · rcases hc : chooseLatLon v1 v2 with er | ⟨la, lo⟩
      · simp only [locResult, hsp, hlt, hl, hc] at hr
        exact absurd hr (by simp)
      · simp only [locResult, hsp, hlt, hl, hc, Except.ok.injEq] at hr
        rw [← hr]
    · simp only [locResult, hsp, hlt, hl] at hr
      exact absurd hr (by simp)

/-- Claim C8, counterexample: the field "()" contains an opening
parenthesis, yet the search `\(([^)]+)` fails (the `(` is followed
immediately by `)`), so extraction raises MissingRemark instead of
producing the empty remark between the parentheses. -/
theorem claim_C8_cex :
    locResult (cs "()") = .error .missingRemark ∧ '(' ∈ cs "()" := by
  exact ⟨by decide, by decide⟩

/-- Claim C8, amended: extraction fails with MissingRemark exactly when
no `(` in the location field is immediately followed by a character
other than `)` (in particular whenever the field has no `(` at all);
otherwise the remark is the maximal run of non-`)` characters following
the first such parenthesis. -/
theorem claim_C8_amended : ∀ f : List Char,
    (anyGood f = false → locResult f = .error .missingRemark) ∧
    (∀ i, goodAtB f i = true → (∀ j, j < i → goodAtB f j = false) →
      searchParen f = some ((f.drop (i + 1)).takeWhile (fun c => c ≠ ')')) ∧
      ∀ r, locResult f = .ok r →
        r.locstring = (f.drop (i + 1)).takeWhile (fun c => c ≠ ')')) := by
  intro f
  constructor
  · intro h
    simp [locResult, searchParen_none_of_anyGood f h]
  · intro i hi hmin
    have hsp := searchParen_first f i hi hmin
    exact ⟨hsp, fun r hr => locstring_of_ok hsp hr⟩

/-- Claim C8, witness: a parenthesis-free field raises MissingRemark,
and on the first recognized example's location field the remark is the
maximal non-`)` run after the parenthesis at index 24. -/
theorem claim_C8_witness :
    locResult (cs "0.30 LS 100.28 BT x") = .error .missingRemark ∧
      searchParen (cs "Lok:0.30 LS - 100.28 BT (9 km Tenggara Bukittinggi)") =
        some (((cs "Lok:0.30 LS - 100.28 BT (9 km Tenggara Bukittinggi)").drop 25).takeWhile
          (fun c => c ≠ ')')) :=
  ⟨(claim_C8_amended (cs "0.30 LS 100.28 BT x")).1 (by decide),
   ((claim_C8_amended
     (cs "Lok:0.30 LS - 100.28 BT (9 km Tenggara Bukittinggi)")).2 24
     (by decide) (by decide)).1⟩

theorem findall2Aux_shape : ∀ (fuel : Nat) (l m : List Char),
    m ∈ findall2Aux fuel l →
    ∃ d1 d2, m = d1 ++ '.' :: d2 ∧ d1 ≠ [] ∧ d2 ≠ [] ∧
      (∀ c ∈ d1, c.isDigit = true) ∧ (∀ c ∈ d2, c.isDigit = true) := by
  intro fuel
  induction fuel with
  | zero => intro l m hm; simp [findall2Aux] at hm
  | succ fu ih =>
    intro l m hm
    cases l with
    | nil => simp [findall2Aux] at hm
    | cons c rest =>
      simp only [findall2Aux] at hm
      rcases hmn : matchNum2 (c :: rest) with _ | ⟨m0, r0⟩ <;> rw [hmn] at hm
      · exact ih rest m hm
      · rcases List.mem_cons.mp hm with he | ht
        · subst he
          unfold matchNum2 at hmn
          split at hmn
          · rename_i r2 heq
            split at hmn
            · rename_i hcond
              simp only [Option.some.injEq, Prod.mk.injEq] at hmn
              refine ⟨(c :: rest).takeWhile Char.isDigit,
                r2.takeWhile Char.isDigit, hmn.1.symm, hcond.1, hcond.2,
                fun x hx => List.mem_takeWhile_imp hx,
                fun x hx => List.mem_takeWhile_imp hx⟩
            · exact absurd hmn (by simp)
          · exact absurd hmn (by simp)
        · exact ih r0 m ht

theorem findall2_shape {f m : List Char} (hm : m ∈ findall2 f) :
    ∃ d1 d2, m = d1 ++ '.' :: d2 ∧ d1 ≠ [] ∧ d2 ≠ [] ∧
      (∀ c ∈ d1, c.isDigit = true) ∧ (∀ c ∈ d2, c.isDigit = true) :=
  findall2Aux_shape (f.length + 1) f m hm

theorem pySign_of_head {dh : Char} {t : List Char} (hd : ¬ dh = '-') :
    pySign (dh :: t) = 1 := by
  unfold pySign
  split
  · rename_i heq
    injection heq with h1 _
    exact absurd h1 hd
  · rfl

theorem pyFloat_some {m : List Char} {q : ℚ} (hp : pyFloat m = some q) :
    ∃ X : ℚ, 0 ≤ X ∧ q = pySign m * X := by
  unfold pyFloat at hp
  split at hp
  · split at hp
    · exact absurd hp (by simp)
    · simp only [Option.some.injEq] at hp
      exact ⟨_, Nat.cast_nonneg _, hp.symm⟩
  · rename_i r2 heq
    split at hp
    · exact absurd hp (by simp)
    · split at hp
      · exact absurd hp (by simp)
      · simp only [Option.some.injEq] at hp
        refine ⟨(natOfDigits ((pyBody m).takeWhile Char.isDigit) : ℚ) +
          (natOfDigits (r2.takeWhile Char.isDigit) : ℚ) /
            10 ^ (r2.takeWhile Char.isDigit).length, ?_, hp.symm⟩
        have h10 : (0 : ℚ) ≤ (natOfDigits (r2.takeWhile Char.isDigit) : ℚ) /
            10 ^ (r2.takeWhile Char.isDigit).length :=
          div_nonneg (Nat.cast_nonneg _) (by positivity)
        exact add_nonneg (Nat.cast_nonneg _) h10
  · exact absurd hp (by simp)

theorem decOf_nonneg_of_head {dh : Char} {t : List Char}
    (hd : ¬ dh = '-') : 0 ≤ decOf (dh :: t) := by
  rcases hp : pyFloat (dh :: t) with _ | q
  · simp [decOf, hp]
  · obtain ⟨X, hX, hq⟩ := pyFloat_some hp
    rw [pySign_of_head hd, one_mul] at hq
    simp [decOf, hp, hq, hX]

theorem findall2_nonneg {f m : List Char} (hm : m ∈ findall2 f) :
    0 ≤ decOf m := by
  obtain ⟨d1, d2, hmeq, h1, _, hall1, _⟩ := findall2_shape hm
  rcases d1 with _ | ⟨dh, dt⟩
  · exact absurd rfl h1
  · have hdh : dh.isDigit = true := hall1 dh (List.mem_cons_self _ _)
    have hd : ¬ dh = '-' := by
      intro hc; rw [hc] at hdh; exact absurd hdh (by decide)
    rw [hmeq]
    exact decOf_nonneg_of_head hd

/-- Claim C10, confirmed: the coordinate pattern `\d+\.\d+` is unsigned,
so the chosen latitude before sign adjustment is nonnegative and lies in
`[0, 6]`: the advertised lower bound -11.0 is unreachable, and the final
signed latitude lies in `[-6, 0]` when the `LS` tag occurs and in
`[0, 6]` otherwise. -/
theorem claim_C10 : ∀ (f : List Char) (r : LocRes), locResult f = .ok r →
    (-6 ≤ r.latitude ∧ r.latitude ≤ 6) ∧
    (hasSub f (cs "LS") = true → -6 ≤ r.latitude ∧ r.latitude ≤ 0) ∧
    (hasSub f (cs "LS") = false → 0 ≤ r.latitude ∧ r.latitude ≤ 6) := by
  intro f r hr
  rcases hsp : searchParen f with _ | g
  · simp only [locResult, hsp] at hr
    exact absurd hr (by simp)
  rcases hlt : (pySplitWs g).getLast? with _ | lt
  · simp only [locResult, hsp, hlt] at hr
    exact absurd hr (by simp)
  rcases hf : findall2 f with _ | ⟨m1, _ | ⟨m2, _ | ⟨m3, mt⟩⟩⟩
  · simp only [locResult, hsp, hlt, hf, List.map] at hr
    exact absurd hr (by simp)
  · simp only [locResult, hsp, hlt, hf, List.map] at hr
    exact absurd hr (by simp)
  swap
  · simp only [locResult, hsp, hlt, hf, List.map] at hr
    exact absurd hr (by simp)
  have hn1 : 0 ≤ decOf m1 := findall2_nonneg (by rw [hf]; simp)
  have hn2 : 0 ≤ decOf m2 := findall2_nonneg (by rw [hf]; simp)
  have hfin : ∀ q : ℚ, 0 ≤ q → q ≤ 6 →
      r.latitude = (latLoop f q).2 →
      (-6 ≤ r.latitude ∧ r.latitude ≤ 6) ∧
      (hasSub f (cs "LS") = true → -6 ≤ r.latitude ∧ r.latitude ≤ 0) ∧
      (hasSub f (cs "LS") = false → 0 ≤ r.latitude ∧ r.latitude ≤ 6) := by
    intro q h0 h6 hlat
    rw [latLoop_snd] at hlat
    by_cases hLS : hasSub f (cs "LS") = true
    · rw [if_pos hLS] at hlat
      refine ⟨⟨by rw [hlat]; linarith, by rw [hlat]; linarith⟩,
        fun _ => ⟨by rw [hlat]; linarith, by rw [hlat]; linarith⟩,
        fun hc => absurd hc (by simp [hLS])⟩
    · have hLS' : hasSub f (cs "LS") = false := by
        simpa using hLS
      rw [if_neg hLS] at hlat
      refine ⟨⟨by rw [hlat]; linarith, by rw [hlat]; linarith⟩,
        fun hc => absurd hc (by simp [hLS']),
        fun _ => ⟨by rw [hlat]; linarith, by rw [hlat]; linarith⟩⟩
  by_cases hin1 : -11 ≤ decOf m1 ∧ decOf m1 ≤ 6
  · simp only [locResult, hsp, hlt, hf, List.map, chooseLatLon,
      if_pos hin1] at hr
    injection hr with hre
    exact hfin (decOf m1) hn1 hin1.2 (by rw [← hre])
  · by_cases hin2 : -11 ≤ decOf m2 ∧ decOf m2 ≤ 6
    · simp only [locResult, hsp, hlt, hf, List.map, chooseLatLon,
        if_neg hin1, if_pos hin2] at hr
      injection hr with hre
      exact hfin (decOf m2) hn2 hin2.2 (by rw [← hre])
    · simp only [locResult, hsp, hlt, hf, List.map, chooseLatLon,
        if_neg hin1, if_neg hin2] at hr
      exact absurd hr (by simp)

/-- Claim C10, witness: on the first recognized example field the final
latitude -0.30 lies in `[-6, 0]` (the `LS` tag occurs). -/
theorem claim_C10_witness :
    locResult (cs "Lok:0.30 LS - 100.28 BT (9 km Tenggara Bukittinggi)") = .ok { locstring := cs "9 km Tenggara Bukittinggi", location := cs "Bukittinggi", latitude := -(3/10), longitude := 2507/25, latloc := some (3/10, cs "LS"), lonloc := some (2507/25, cs "BT") } ∧
      (-6 ≤ (-(3/10) : ℚ) ∧ (-(3/10) : ℚ) ≤ 0) := by
  have hA : locResult (cs "Lok:0.30 LS - 100.28 BT (9 km Tenggara Bukittinggi)") = .ok { locstring := cs "9 km Tenggara Bukittinggi", location := cs "Bukittinggi", latitude := -(3/10), longitude := 2507/25, latloc := some (3/10, cs "LS"), lonloc := some (2507/25, cs "BT") } := by
    with_unfolding_all rfl
  exact ⟨hA, (claim_C10 _ _ hA).2.1 (by decide)⟩

end GetParam
